import Mathlib

/-!
Verification of the bpftune event pipeline against its sources.

The development shallowly embeds:
* the shared BPF helper code (`src/unnamed/part_001`, the `bpftune.bpf.h`
  payload): `get_netns_cookie`, the `last_event_key` macro, the
  `last_event_map` hash map and `send_sysctl_event`;
* the netns probes (`src/unnamed/part_002`): `bpftune_setup_net` (fexit
  variant) and `net_free`;
* the sample tuner (`src/unnamed/part_000`);
* the TCP buffer tuner's userspace `event_handler`
  (`src/src/tcp_buffer_tuner.c`) together with the correlation
  statistics it consults.

Machine integers are modelled as `Nat`/`Int` with explicit reduction
mod `2 ^ 64` where the C code relies on `__u64` wrap-around.
-/

namespace Bpftune

/-- `2 ^ 64`, the modulus of `__u64` arithmetic. -/
def U64_MOD : Nat := 2 ^ 64

/-- Largest `__u64` value. -/
def U64_MAX : Nat := U64_MOD - 1

/-- Nanoseconds per millisecond. Modelled from the spec: the header
defining `MSEC` is not part of the sources; the spec fixes the dedup
window at 25 milliseconds of `bpf_ktime_get_ns` nanosecond time. -/
def MSEC : Nat := 1000000

/-- `__u64` subtraction `a - b` (two's-complement wrap-around), for
arguments already reduced or not mod `2 ^ 64`. -/
def u64sub (a b : Nat) : Nat :=
  (a % U64_MOD + (U64_MOD - b % U64_MOD)) % U64_MOD

/-- Cast of a C `long` (signed 64-bit) value to `__u64`. -/
def u64ofInt (i : Int) : Nat := (i % (U64_MOD : Int)).toNat

/-- `get_netns_cookie` from `src/unnamed/part_001` lines 101-104:
`net ? net->net_cookie : 0`.  Kernel `struct net *` pointers are
modelled as `Option Nat` addresses and the kernel memory holding each
namespace's `net_cookie` field as a function `cookieOf` from addresses
to the `long` value the BPF program reads. -/
def get_netns_cookie (cookieOf : Nat → Int) (net : Option Nat) : Int :=
  match net with
  | some a => cookieOf a
  | none => 0

/-- The `last_event_key(nscookie, tuner, event)` macro from
`src/unnamed/part_001` lines 106-107:
`(__u64)nscookie | ((__u64)event << 32) | ((__u64)tuner << 48)`,
with every operand and the shifts performed in `__u64`. -/
def last_event_key (nscookie : Int) (tuner : Nat) (event : Nat) : Nat :=
  u64ofInt nscookie ||| (event <<< 32) % U64_MOD ||| (tuner <<< 48) % U64_MOD

/-- `max_entries` of `last_event_map` (`src/unnamed/part_001` line 111). -/
def LAST_EVENT_MAP_MAX_ENTRIES : Nat := 65536

/-- The `last_event_map` BPF hash map (`__u64` keys and values): a finite
partial map described by its lookup function together with its entry
count.  A state is a valid map image when `size` is the number of keys
on which `find` is `some`; all states used in concrete theorems below
are of that shape. -/
structure LastEventMap where
  find : Nat → Option Nat
  size : Nat

/-- `bpf_map_update_elem(&last_event_map, &key, &val, 0)` (flag `BPF_ANY`):
overwrites the value of a key that is present, inserts an absent key when
the table still has room, and fails leaving the map unchanged when an
absent key is inserted into a full table.  The `Bool` is `true` on
success (the C call returns 0). -/
def mapUpdate (m : LastEventMap) (k v : Nat) : LastEventMap × Bool :=
  match m.find k with
  | some _ => (⟨fun j => if j = k then some v else m.find j, m.size⟩, true)
  | none =>
    if m.size < LAST_EVENT_MAP_MAX_ENTRIES then
      (⟨fun j => if j = k then some v else m.find j, m.size + 1⟩, true)
    else
      (m, false)

/-- `struct sock`, reduced to the one field `send_sysctl_event` reads:
`sk->sk_net.net`, a possibly-NULL `struct net *`. -/
structure Sock where
  net : Option Nat
deriving DecidableEq

/-- The guarded dereference `sk ? sk->sk_net.net : NULL`
(`src/unnamed/part_001` line 121). -/
def sk_net (sk : Option Sock) : Option Nat :=
  match sk with
  | some s => s.net
  | none => none

/-- The ring event record as filled in by `send_sysctl_event`
(`src/unnamed/part_001` lines 141-150): `tuner_id`, `scenario_id`,
`netns_cookie`, and update slot 0's id, old and new triples. -/
structure SysctlEvent where
  tuner_id : Nat
  scenario_id : Nat
  netns_cookie : Int
  update_id : Nat
  old : Int × Int × Int
  new : Int × Int × Int
deriving DecidableEq

/-- The `last_event_map` key `send_sysctl_event` computes for a given
socket, tuner and event id (`src/unnamed/part_001` lines 128-130). -/
def sendKey (cookieOf : Nat → Int) (tuner_id : Nat) (sk : Option Sock)
    (event_id : Nat) : Nat :=
  last_event_key (get_netns_cookie cookieOf (sk_net sk)) tuner_id event_id

/-- `send_sysctl_event` from `src/unnamed/part_001` lines 116-156.
`now` is the `bpf_ktime_get_ns()` timestamp.  Returns the resulting
`last_event_map` and `some` emitted ring event, or `none` when the
event is suppressed by the 25 ms dedup window.  The C code ignores the
result of `bpf_map_update_elem` and of `bpf_ringbuf_output`; emission
happens on every path that reaches the ring write. -/
def send_sysctl_event (cookieOf : Nat → Int) (tuner_id : Nat)
    (sk : Option Sock) (scenario_id event_id : Nat)
    (old new : Int × Int × Int) (m : LastEventMap) (now : Nat) :
    LastEventMap × Option SysctlEvent :=
  let nscookie := get_netns_cookie cookieOf (sk_net sk)
  let event_key := last_event_key nscookie tuner_id event_id
  match m.find event_key with
  | some last =>
    if u64sub now last < 25 * MSEC then
      (m, none)
    else
      (⟨fun j => if j = event_key then some now else m.find j, m.size⟩,
       some ⟨tuner_id, scenario_id, nscookie, event_id, old, new⟩)
  | none =>
    ((mapUpdate m event_key now).1,
     some ⟨tuner_id, scenario_id, nscookie, event_id, old, new⟩)

/-- Timestamps of the events that `send_sysctl_event` actually emits when
fed a chronological list of invocation times for one fixed
(tuner, socket, event) source, threading the `last_event_map` through. -/
def sendTrace (cookieOf : Nat → Int) (tuner_id : Nat) (sk : Option Sock)
    (scenario_id event_id : Nat) (old new : Int × Int × Int) :
    LastEventMap → List Nat → List Nat
  | _, [] => []
  | m, t :: ts =>
    let r := send_sysctl_event cookieOf tuner_id sk scenario_id event_id old new m t
    if r.2.isSome then
      t :: sendTrace cookieOf tuner_id sk scenario_id event_id old new r.1 ts
    else
      sendTrace cookieOf tuner_id sk scenario_id event_id old new r.1 ts

/-- Saturating `__u64` addition.  Modelled from the spec: the correlation
header `corr.h` is not among the sources; §4.4 prescribes that all
`corr_update` arithmetic uses 64-bit integers whose accumulators
saturate (rather than wrap) on overflow. -/
def satAdd (a b : Nat) : Nat := min (a + b) U64_MAX

/-- Saturating `__u64` multiplication (see `satAdd`). -/
def satMul (a b : Nat) : Nat := min (a * b) U64_MAX

/-- A correlation entry.  Modelled from the spec (the `struct corr` of the
missing `corr.h`): sample count `n` and running sums
`Σx, Σy, Σxy, Σx², Σy²`. -/
structure Corr where
  n : Nat
  sum_x : Nat
  sum_y : Nat
  sum_xy : Nat
  sum_x2 : Nat
  sum_y2 : Nat
deriving DecidableEq

/-- The zeroed `struct corr = {}` a fresh map entry starts from
(`corr_update_bpf`, `src/unnamed/part_001` lines 158-174). -/
def corrEmpty : Corr := ⟨0, 0, 0, 0, 0, 0⟩

/-- `corr_update(corr, x, y)`.  Modelled from the spec §4.4: increments
`n`, adds `x` to `Σx`, `y` to `Σy`, `x·y` to `Σxy`, `x²` to `Σx²`,
`y²` to `Σy²`, all in saturating 64-bit arithmetic. -/
def corr_update (c : Corr) (x y : Nat) : Corr :=
  ⟨satAdd c.n 1, satAdd c.sum_x x, satAdd c.sum_y y,
   satAdd c.sum_xy (satMul x y), satAdd c.sum_x2 (satMul x x),
   satAdd c.sum_y2 (satMul y y)⟩

/-- The correlation entry reached from `corrEmpty` by one `corr_update`
call per sample of the list, in order. -/
def corr_fold (l : List (Nat × Nat)) : Corr :=
  l.foldl (fun c p => corr_update c p.1 p.2) corrEmpty

/-- The entry whose fields are the exact (unsaturated) sums over the
sample list; `corr_fold l = corr_exact l` says that no accumulator
saturated while the entry was built. -/
def corr_exact (l : List (Nat × Nat)) : Corr :=
  ⟨l.length, (l.map (·.1)).sum, (l.map (·.2)).sum,
   (l.map fun p => p.1 * p.2).sum, (l.map fun p => p.1 * p.1).sum,
   (l.map fun p => p.2 * p.2).sum⟩

/-- Numerator `n·Σxy − Σx·Σy` of the Pearson coefficient, exactly. -/
def corr_num (c : Corr) : Int := (c.n : Int) * c.sum_xy - (c.sum_x : Int) * c.sum_y

/-- First variance factor `n·Σx² − (Σx)²`, exactly. -/
def corr_varx (c : Corr) : Int := (c.n : Int) * c.sum_x2 - (c.sum_x : Int) * c.sum_x

/-- Second variance factor `n·Σy² − (Σy)²`, exactly. -/
def corr_vary (c : Corr) : Int := (c.n : Int) * c.sum_y2 - (c.sum_y : Int) * c.sum_y

/-- `corr_compute(entry)`.  Modelled from the spec §4.4: returns `0` when
`n < 2` or when either variance factor is non-positive, and otherwise
`(n·Σxy − Σx·Σy) / sqrt((n·Σx² − (Σx)²)·(n·Σy² − (Σy)²))`.  The C code
computes in `long double`; the model uses exact real arithmetic. -/
noncomputable def corr_compute (c : Corr) : ℝ :=
  if c.n < 2 then 0
  else if corr_varx c ≤ 0 ∨ corr_vary c ≤ 0 then 0
  else (corr_num c : ℝ) / Real.sqrt ((corr_varx c : ℝ) * (corr_vary c : ℝ))

/-- `CORR_THRESHOLD`.  Modelled from the spec §4.4: default 0.5. -/
noncomputable def CORR_THRESHOLD : ℝ := 1 / 2

/-- Decidable form of the guard `corr_compute(&c) > CORR_THRESHOLD` used
by the TCP buffer tuner (`src/src/tcp_buffer_tuner.c` line 207); the
theorem `corr_exceeds_threshold_iff` below proves it equivalent to the
real-valued comparison. -/
def corr_exceeds_threshold (c : Corr) : Bool :=
  decide (2 ≤ c.n ∧ 0 < corr_varx c ∧ 0 < corr_vary c ∧ 0 < corr_num c ∧
    corr_varx c * corr_vary c < 4 * (corr_num c * corr_num c))

/-- Tunable kind; only `BPFTUNABLE_SYSCTL` occurs in this tuner. -/
inductive BpftunableType
  | sysctl
deriving DecidableEq

/-- One row of a `struct bpftunable_desc` array. -/
structure BpftunableDesc where
  id : Nat
  type : BpftunableType
  name : String
  namespaced : Bool
  num_values : Nat
deriving DecidableEq

/-- One row of a `struct bpftunable_scenario` array. -/
structure BpftunableScenario where
  id : Nat
  name : String
  description : String
deriving DecidableEq

/-- Tunable ids of the TCP buffer tuner.  The enum lives in the missing
`tcp_buffer_tuner.h`; the values follow the order of the `descs` array
(`src/src/tcp_buffer_tuner.c` lines 15-24), and only their distinctness
matters to the handler. -/
def TCP_BUFFER_TCP_WMEM : Nat := 0

def TCP_BUFFER_TCP_RMEM : Nat := 1

def TCP_BUFFER_TCP_MEM : Nat := 2

def TCP_BUFFER_TCP_MAX_ORPHANS : Nat := 3

def NETDEV_MAX_BACKLOG : Nat := 4

/-- Scenario ids of the TCP buffer tuner, in the order of the
`scenarios` array (`src/src/tcp_buffer_tuner.c` lines 26-47). -/
def TCP_BUFFER_INCREASE : Nat := 0

def TCP_BUFFER_DECREASE : Nat := 1

def TCP_BUFFER_NOCHANGE_LATENCY : Nat := 2

def TCP_MEM_PRESSURE : Nat := 3

def TCP_MEM_EXHAUSTION : Nat := 4

def TCP_MAX_ORPHANS_INCREASE : Nat := 5

def NETDEV_MAX_BACKLOG_INCREASE : Nat := 6

def NETDEV_MAX_BACKLOG_DECREASE : Nat := 7

/-- The `descs` array of `src/src/tcp_buffer_tuner.c` lines 15-24. -/
def descs : List BpftunableDesc :=
  [⟨TCP_BUFFER_TCP_WMEM, .sysctl, "net.ipv4.tcp_wmem", true, 3⟩,
   ⟨TCP_BUFFER_TCP_RMEM, .sysctl, "net.ipv4.tcp_rmem", true, 3⟩,
   ⟨TCP_BUFFER_TCP_MEM, .sysctl, "net.ipv4.tcp_mem", false, 3⟩,
   ⟨TCP_BUFFER_TCP_MAX_ORPHANS, .sysctl, "net.ipv4.tcp_max_orphans", false, 1⟩,
   ⟨NETDEV_MAX_BACKLOG, .sysctl, "net.core.netdev_max_backlog", false, 1⟩]

/-- The `scenarios` array of `src/src/tcp_buffer_tuner.c` lines 26-47. -/
def scenarios : List BpftunableScenario :=
  [⟨TCP_BUFFER_INCREASE, "need to increase TCP buffer size(s)",
    "Need to increase buffer size(s) to maximize throughput"⟩,
   ⟨TCP_BUFFER_DECREASE, "need to decrease TCP buffer size(s)",
    "Need to decrease buffer size(s) to reduce memory utilization"⟩,
   ⟨TCP_BUFFER_NOCHANGE_LATENCY, "need to retain TCP buffer size due to latency",
    "Latency is starting to correlate with buffer size increases, so do not make buffer size increase to avoid this effect"⟩,
   ⟨TCP_MEM_PRESSURE, "approaching TCP memory pressure",
    "Since memory pressure/exhaustion are unstable system states, adjust tcp memory-related tunables"⟩,
   ⟨TCP_MEM_EXHAUSTION, "approaching TCP memory exhaustion",
    "Since memory exhaustion is a highly unstable state, adjust TCP memory-related tunables to avoid exhaustion"⟩,
   ⟨TCP_MAX_ORPHANS_INCREASE, "increase max number of orphaned sockets", ""⟩,
   ⟨NETDEV_MAX_BACKLOG_INCREASE, "increase max backlog for received packets", ""⟩,
   ⟨NETDEV_MAX_BACKLOG_DECREASE, "decrease max backlog for received packets", ""⟩]

/-- `bpftuner_tunable_name(tuner, id)` for the TCP buffer tuner: the name
of the registered descriptor with the given id, or `none`.  The lookup
itself lives in the missing `libbpftune.c`; the registered descriptors
are exactly the `descs` the tuner passed to `bpftuner_tunables_init`
(`src/src/tcp_buffer_tuner.c` lines 147-148). -/
def bpftuner_tunable_name (id : Nat) : Option String :=
  (descs.find? fun d => d.id = id).map (·.name)

/-- One `bpftuner_tunable_sysctl_write` request as issued by the TCP
buffer tuner's `event_handler`: tunable id, scenario, target namespace
cookie, number of values and the value triple (only the first
`num_values` components are meaningful). -/
structure SysctlWrite where
  id : Nat
  scenario : Nat
  netns_cookie : Int
  num_values : Nat
  values : Int × Int × Int
deriving DecidableEq

/-- The TCP buffer tuner's `event_handler`
(`src/src/tcp_buffer_tuner.c` lines 157-251) reduced to its effect on
tunables: the sysctl write it requests, if any.  `corr_lookup` models
`bpf_map_lookup_elem(tuner->corr_map_fd, ...)` on keys
`(id, netns_cookie)`.  The memory-pressure globals only select log
strings and are omitted. -/
def tcp_buffer_event_handler (corr_lookup : Nat × Int → Option Corr)
    (ev : SysctlEvent) : Option SysctlWrite :=
  if ev.netns_cookie = -1 then none
  else
    let id := ev.update_id
    match bpftuner_tunable_name id with
    | none => none
    | some _ =>
      let scenario :=
        match corr_lookup (id, ev.netns_cookie) with
        | some c =>
          if corr_exceeds_threshold c ∧ ev.scenario_id = TCP_BUFFER_INCREASE then
            TCP_BUFFER_NOCHANGE_LATENCY
          else ev.scenario_id
        | none => ev.scenario_id
      if id = TCP_BUFFER_TCP_MEM then
        some ⟨id, scenario, ev.netns_cookie, 3, ev.new⟩
      else if id = TCP_BUFFER_TCP_WMEM ∨ id = TCP_BUFFER_TCP_RMEM then
        let new2 := if scenario = TCP_BUFFER_NOCHANGE_LATENCY then ev.old.2.2 else ev.new.2.2
        some ⟨id, scenario, ev.netns_cookie, 3, (ev.new.1, ev.new.2.1, new2)⟩
      else if id = NETDEV_MAX_BACKLOG then
        some ⟨id, scenario, ev.netns_cookie, 1, ev.new⟩
      else
        none

/-- Scenario ids of the netns tuner (missing `netns_tuner.h`); only
their distinctness matters. -/
def NETNS_SCENARIO_CREATE : Nat := 0

def NETNS_SCENARIO_DESTROY : Nat := 1

/-- The ring event record as filled in by the netns probes
(`src/unnamed/part_002`). -/
structure NetnsEvent where
  tuner_id : Nat
  pid : Nat
  scenario_id : Nat
  netns_cookie : Int
deriving DecidableEq

/-- The `fexit/setup_net` probe `bpftune_setup_net`
(`src/unnamed/part_002` lines 49-66): returns the event written to the
ring buffer, or `none`.  `init_net` is the address of the kernel's
initial namespace; `ret` is `setup_net`'s return value. -/
def bpftune_setup_net (cookieOf : Nat → Int) (init_net : Nat)
    (tuner_id pid : Nat) (net : Option Nat) (ret : Int) : Option NetnsEvent :=
  if ret ≠ 0 ∨ net = none ∨ net = some init_net then none
  else
    let c := get_netns_cookie cookieOf net
    if 0 ≤ c then some ⟨tuner_id, pid, NETNS_SCENARIO_CREATE, c⟩ else none

/-- The `fentry/net_free` probe (`src/unnamed/part_002` lines 69-83):
returns the event written to the ring buffer, or `none`.  The probe
leaves `event.pid` at its zero initialisation. -/
def net_free (cookieOf : Nat → Int) (tuner_id : Nat) (net : Option Nat) :
    Option NetnsEvent :=
  if net = none then none
  else
    let c := get_netns_cookie cookieOf net
    if 0 ≤ c then some ⟨tuner_id, 0, NETNS_SCENARIO_DESTROY, c⟩ else none

/-- Observable actions of the sample tuner's `event_handler`: it only
calls `bpftune_log`. -/
inductive SampleAction
  | log (scenario_id : Nat) (tuner_name : String)
deriving DecidableEq

/-- The sample tuner's `init` (`src/unnamed/part_000` lines 9-13):
its return status paired with the tunable descriptors it registers.
The function loads and attaches the sample probe via
`bpftuner_bpf_init`, never calls `bpftuner_tunables_init`, and
returns 0. -/
def sample_init : Int × List BpftunableDesc := (0, [])

/-- The sample tuner's `event_handler` (`src/unnamed/part_000`
lines 20-26): the log lines it produces paired with the sysctl writes
it requests (none; the body is a single `bpftune_log` call). -/
def sample_event_handler (tuner_name : String) (ev : SysctlEvent) :
    List SampleAction × List SysctlWrite :=
  ([SampleAction.log ev.scenario_id tuner_name], [])

/-- Modelled from the spec §4.3: on `fini`, the registry restores the
captured original of every tunable the tuner registered and wrote; the
restore set is therefore drawn from the registered descriptors. -/
def fini_restored (registered : List BpftunableDesc) : List BpftunableDesc :=
  registered

/-! ## Claim C8 -/

/-- C8: the sample tuner satisfies the minimum tuner contract — its
`init` returns status 0 and registers no tunable descriptors, its
`event_handler` only emits one log line carrying the event's scenario
id and the tuner's name and requests no sysctl write (leaving all
tunable and daemon state untouched), and, nothing having been
registered, `fini` restores nothing. -/
theorem sample_tuner_minimal_contract :
    sample_init.1 = 0 ∧ sample_init.2 = [] ∧
    (∀ (tuner_name : String) (ev : SysctlEvent),
      sample_event_handler tuner_name ev =
        ([SampleAction.log ev.scenario_id tuner_name], [])) ∧
    fini_restored sample_init.2 = [] :=
  ⟨rfl, rfl, fun _ _ => rfl, rfl⟩

/-! ## Claim C1 -/

/-- C1 counterexample: the TCP buffer tuner's `event_handler` does not
process an event whose `netns_cookie` is the all-ones sentinel −1: the
very same tcp_wmem increase event produces a sysctl write when its
cookie is 0 but no write at all when its cookie is −1 — the handler
discards it at `src/src/tcp_buffer_tuner.c` lines 172-174 instead of
handling it as a global event. -/
theorem sentinel_event_discarded_counterexample :
    tcp_buffer_event_handler (fun _ => none)
      ⟨1, TCP_BUFFER_INCREASE, -1, TCP_BUFFER_TCP_WMEM,
       (4096, 16384, 65536), (4096, 16384, 131072)⟩ = none ∧
    tcp_buffer_event_handler (fun _ => none)
      ⟨1, TCP_BUFFER_INCREASE, 0, TCP_BUFFER_TCP_WMEM,
       (4096, 16384, 65536), (4096, 16384, 131072)⟩ =
      some ⟨TCP_BUFFER_TCP_WMEM, TCP_BUFFER_INCREASE, 0, 3,
            (4096, 16384, 131072)⟩ :=
  ⟨by decide, by decide⟩

/-- C1 (amended): for every event whose `netns_cookie` equals −1, the
TCP buffer tuner's `event_handler` returns immediately and performs no
sysctl write: sentinel events are ignored by this tuner, not handled
as global events. -/
theorem sentinel_event_handler_ignores
    (corr_lookup : Nat × Int → Option Corr) (ev : SysctlEvent)
    (h : ev.netns_cookie = -1) :
    tcp_buffer_event_handler corr_lookup ev = none := by
  simp [tcp_buffer_event_handler, h]

/-- C1 witness: `sentinel_event_handler_ignores` applied at a concrete
tcp_rmem event carrying the −1 cookie. -/
theorem sentinel_event_handler_ignores_witness :
    tcp_buffer_event_handler (fun _ => none)
      ⟨2, TCP_BUFFER_DECREASE, -1, TCP_BUFFER_TCP_RMEM,
       (4096, 131072, 6291456), (4096, 131072, 3145728)⟩ = none :=
  sentinel_event_handler_ignores (fun _ => none)
    ⟨2, TCP_BUFFER_DECREASE, -1, TCP_BUFFER_TCP_RMEM,
     (4096, 131072, 6291456), (4096, 131072, 3145728)⟩ rfl

/-! ## Claim C10 -/

/-- C10: an event whose update id is `TCP_BUFFER_TCP_MAX_ORPHANS`
produces no sysctl write from the TCP buffer tuner's `event_handler`
(its switch case is an empty `break`), although the
`net.ipv4.tcp_max_orphans` descriptor and the
`TCP_MAX_ORPHANS_INCREASE` scenario are both registered. -/
theorem max_orphans_no_write
    (corr_lookup : Nat × Int → Option Corr) (ev : SysctlEvent)
    (h : ev.update_id = TCP_BUFFER_TCP_MAX_ORPHANS) :
    tcp_buffer_event_handler corr_lookup ev = none ∧
    (⟨TCP_BUFFER_TCP_MAX_ORPHANS, .sysctl, "net.ipv4.tcp_max_orphans",
      false, 1⟩ : BpftunableDesc) ∈ descs ∧
    (⟨TCP_MAX_ORPHANS_INCREASE, "increase max number of orphaned sockets",
      ""⟩ : BpftunableScenario) ∈ scenarios := by
  refine ⟨?_, by decide, by decide⟩
  by_cases hc : ev.netns_cookie = -1
  · simp [tcp_buffer_event_handler, hc]
  · cases hlook : corr_lookup (ev.update_id, ev.netns_cookie) <;>
      simp [tcp_buffer_event_handler, hc, h, hlook, bpftuner_tunable_name, descs,
        TCP_BUFFER_TCP_MAX_ORPHANS, TCP_BUFFER_TCP_MEM, TCP_BUFFER_TCP_WMEM,
        TCP_BUFFER_TCP_RMEM, NETDEV_MAX_BACKLOG, List.find?]

/-- C10 witness: `max_orphans_no_write` applied at a concrete
max-orphans event. -/
theorem max_orphans_no_write_witness :
    tcp_buffer_event_handler (fun _ => none)
      ⟨1, TCP_MAX_ORPHANS_INCREASE, 5, TCP_BUFFER_TCP_MAX_ORPHANS,
       (8192, 0, 0), (16384, 0, 0)⟩ = none ∧
    (⟨TCP_BUFFER_TCP_MAX_ORPHANS, .sysctl, "net.ipv4.tcp_max_orphans",
      false, 1⟩ : BpftunableDesc) ∈ descs ∧
    (⟨TCP_MAX_ORPHANS_INCREASE, "increase max number of orphaned sockets",
      ""⟩ : BpftunableScenario) ∈ scenarios :=
  max_orphans_no_write (fun _ => none)
    ⟨1, TCP_MAX_ORPHANS_INCREASE, 5, TCP_BUFFER_TCP_MAX_ORPHANS,
     (8192, 0, 0), (16384, 0, 0)⟩ rfl

/-! ## Claim C6 -/

/-- C6: the netns probes emit a create event only when `setup_net`
returned 0, the `net` pointer is non-NULL and is not the initial
namespace, and a destroy event only for a non-NULL `net`; in both
probes the event reaches the ring only when its namespace cookie is
non-negative, so no emitted create/destroy event ever carries a
negative cookie — in particular never the −1 sentinel. -/
theorem netns_probe_emission_conditions
    (cookieOf : Nat → Int) (init_net tuner_id pid : Nat)
    (net : Option Nat) (ret : Int) :
    (∀ ev, bpftune_setup_net cookieOf init_net tuner_id pid net ret = some ev →
      ret = 0 ∧ net ≠ none ∧ net ≠ some init_net ∧
      ev.scenario_id = NETNS_SCENARIO_CREATE ∧ 0 ≤ ev.netns_cookie ∧
      ev.netns_cookie ≠ -1) ∧
    (∀ ev, net_free cookieOf tuner_id net = some ev →
      net ≠ none ∧ ev.scenario_id = NETNS_SCENARIO_DESTROY ∧
      0 ≤ ev.netns_cookie ∧ ev.netns_cookie ≠ -1) := by
  constructor
  · intro ev hev
    unfold bpftune_setup_net at hev
    split at hev
    · cases hev
    · next hguard =>
      push_neg at hguard
      obtain ⟨hret, hnn, hni⟩ := hguard
      dsimp only at hev
      split at hev
      · next hcpos =>
        injection hev with h
        subst h
        refine ⟨hret, hnn, hni, rfl, hcpos, ?_⟩
        show get_netns_cookie cookieOf net ≠ -1
        omega
      · cases hev
  · intro ev hev
    unfold net_free at hev
    split at hev
    · cases hev
    · next hnn =>
      dsimp only at hev
      split at hev
      · next hcpos =>
        injection hev with h
        subst h
        refine ⟨hnn, rfl, hcpos, ?_⟩
        show get_netns_cookie cookieOf net ≠ -1
        omega
      · cases hev

/-- C6 witness: `netns_probe_emission_conditions` instantiated at a
successful creation (and destruction) of a namespace with cookie 5. -/
theorem netns_probe_emission_conditions_witness :
    ((0 : Int) = 0 ∧ (some 2 : Option Nat) ≠ none ∧
      (some 2 : Option Nat) ≠ some 1 ∧
      NETNS_SCENARIO_CREATE = NETNS_SCENARIO_CREATE ∧ (0 : Int) ≤ 5 ∧
      (5 : Int) ≠ -1) ∧
    ((some 2 : Option Nat) ≠ none ∧
      NETNS_SCENARIO_DESTROY = NETNS_SCENARIO_DESTROY ∧ (0 : Int) ≤ 5 ∧
      (5 : Int) ≠ -1) :=
  ⟨(netns_probe_emission_conditions (fun _ => 5) 1 3 4 (some 2) 0).1
      ⟨3, 4, NETNS_SCENARIO_CREATE, 5⟩ (by decide),
   (netns_probe_emission_conditions (fun _ => 5) 1 3 4 (some 2) 0).2
      ⟨3, 0, NETNS_SCENARIO_DESTROY, 5⟩ (by decide)⟩

/-! ## Claim C9 -/

/-- C9: when the socket (or its `net` pointer) is NULL,
`get_netns_cookie` yields 0, so `send_sysctl_event` behaves exactly as
for a namespace with cookie 0: any event it emits carries
`netns_cookie = 0` (not the −1 sentinel), its dedup key is
`last_event_key 0 tuner_id event_id`, and the whole run coincides with
the run on a NULL socket. -/
theorem null_socket_cookie_zero
    (cookieOf : Nat → Int) (tuner_id : Nat) (sk : Option Sock)
    (scenario_id event_id : Nat) (old new : Int × Int × Int)
    (m : LastEventMap) (now : Nat)
    (h : sk = none ∨ ∃ s, sk = some s ∧ s.net = none) :
    get_netns_cookie cookieOf (sk_net sk) = 0 ∧
    sendKey cookieOf tuner_id sk event_id =
      last_event_key 0 tuner_id event_id ∧
    send_sysctl_event cookieOf tuner_id sk scenario_id event_id old new m now =
      send_sysctl_event cookieOf tuner_id none scenario_id event_id old new m now ∧
    (∀ ev, (send_sysctl_event cookieOf tuner_id sk scenario_id event_id
        old new m now).2 = some ev → ev.netns_cookie = 0) := by
  have hnet : sk_net sk = none := by
    rcases h with h | ⟨s, hs, hn⟩
    · simp [h, sk_net]
    · simp [hs, sk_net, hn]
  have hc : get_netns_cookie cookieOf (sk_net sk) = 0 := by
    simp [hnet, get_netns_cookie]
  refine ⟨hc, ?_, ?_, ?_⟩
  · simp [sendKey, hc]
  · unfold send_sysctl_event
    rw [hnet]
    rfl
  · intro ev hev
    unfold send_sysctl_event at hev
    simp only [hc] at hev
    rcases hfind : m.find (last_event_key 0 tuner_id event_id) with _ | last
    · simp only [hfind] at hev
      simp only [Option.some.injEq] at hev
      subst hev
      rfl
    · simp only [hfind] at hev
      by_cases hwin : u64sub now last < 25 * MSEC
      · simp [hwin] at hev
      · simp only [if_neg hwin, Option.some.injEq] at hev
        subst hev
        rfl

/-- C9 witness: `null_socket_cookie_zero` applied to a NULL socket on
an empty dedup map. -/
theorem null_socket_cookie_zero_witness :
    get_netns_cookie (fun _ => 9) (sk_net none) = 0 ∧
    sendKey (fun _ => 9) 1 none 2 = last_event_key 0 1 2 ∧
    send_sysctl_event (fun _ => 9) 1 none 0 2 (1, 2, 3) (4, 5, 6)
      ⟨fun _ => none, 0⟩ 77 =
      send_sysctl_event (fun _ => 9) 1 none 0 2 (1, 2, 3) (4, 5, 6)
        ⟨fun _ => none, 0⟩ 77 ∧
    (∀ ev, (send_sysctl_event (fun _ => 9) 1 none 0 2 (1, 2, 3) (4, 5, 6)
        ⟨fun _ => none, 0⟩ 77).2 = some ev → ev.netns_cookie = 0) :=
  null_socket_cookie_zero (fun _ => 9) 1 none 0 2 (1, 2, 3) (4, 5, 6)
    ⟨fun _ => none, 0⟩ 77 (Or.inl rfl)

/-! ## Claim C5 -/

/-- Field extraction: two 64-bit packings of a 32-bit low field, a
16-bit field at bit 32 and a 16-bit field at bit 48 are equal only if
the fields agree. -/
theorem lor_fields_inj (a1 a2 e1 e2 t1 t2 : Nat)
    (ha1 : a1 < 2 ^ 32) (ha2 : a2 < 2 ^ 32) (he1 : e1 < 2 ^ 16)
    (he2 : e2 < 2 ^ 16) (ht1 : t1 < 2 ^ 16) (ht2 : t2 < 2 ^ 16)
    (h : a1 ||| e1 <<< 32 ||| t1 <<< 48 = a2 ||| e2 <<< 32 ||| t2 <<< 48) :
    a1 = a2 ∧ e1 = e2 ∧ t1 = t2 := by
  have hbit : ∀ i, (a1 ||| e1 <<< 32 ||| t1 <<< 48).testBit i =
      (a2 ||| e2 <<< 32 ||| t2 <<< 48).testBit i := fun i => by rw [h]
  have hpow : ∀ {x n m : Nat}, x < 2 ^ n → n ≤ m → x.testBit m = false :=
    fun hx hnm =>
      Nat.testBit_lt_two_pow (lt_of_lt_of_le hx (Nat.pow_le_pow_right (by norm_num) hnm))
  refine ⟨?_, ?_, ?_⟩
  · apply Nat.eq_of_testBit_eq
    intro i
    by_cases hi : i < 32
    · have hb := hbit i
      have h32 : ¬ (32 ≤ i) := by omega
      have h48 : ¬ (48 ≤ i) := by omega
      simpa [Nat.testBit_or, Nat.testBit_shiftLeft, h32, h48] using hb
    · rw [hpow ha1 (by omega), hpow ha2 (by omega)]
  · apply Nat.eq_of_testBit_eq
    intro i
    by_cases hi : i < 16
    · have hb := hbit (32 + i)
      have h32 : (32 : Nat) ≤ 32 + i := by omega
      have h48 : ¬ ((48 : Nat) ≤ 32 + i) := by omega
      simpa [Nat.testBit_or, Nat.testBit_shiftLeft, h32, h48,
        hpow ha1 h32, hpow ha2 h32, Nat.add_sub_cancel_left] using hb
    · rw [hpow he1 (by omega), hpow he2 (by omega)]
  · apply Nat.eq_of_testBit_eq
    intro i
    have hb := hbit (48 + i)
    have h32 : (32 : Nat) ≤ 48 + i := by omega
    have h48 : (48 : Nat) ≤ 48 + i := by omega
    have hs : 48 + i - 32 = 16 + i := by omega
    simpa [Nat.testBit_or, Nat.testBit_shiftLeft, h32, h48, hs,
      hpow ha1 (by omega : (32 : Nat) ≤ 48 + i),
      hpow ha2 (by omega : (32 : Nat) ≤ 48 + i),
      hpow he1 (Nat.le_add_right 16 i), hpow he2 (Nat.le_add_right 16 i),
      Nat.add_sub_cancel_left] using hb

/-- C5 counterexample: the packed dedup key does not identify the
triple — the cookie field is not masked to 32 bits, so the triple
(netns_cookie = 2^32, tuner_id = 0, event_id = 0) and the triple
(netns_cookie = 0, tuner_id = 0, event_id = 1) are distinct yet
produce the same 64-bit key. -/
theorem last_event_key_collision :
    last_event_key (2 ^ 32 : Int) 0 0 = last_event_key 0 0 1 ∧
    ((2 ^ 32 : Int), (0 : Nat), (0 : Nat)) ≠ ((0 : Int), (0 : Nat), (1 : Nat)) :=
  ⟨by decide, by decide⟩

/-- C5 (amended): the key is computed as
`netns_cookie | (event_id << 32) | (tuner_id << 48)`, and it identifies
the triple on the realizable ranges: whenever both cookies lie in
`[0, 2^32)` and both tuner and event ids are below `2^16`, distinct
triples yield distinct keys. -/
theorem last_event_key_injective_bounded
    (c1 c2 : Int) (t1 t2 e1 e2 : Nat)
    (hc1 : 0 ≤ c1) (hc1b : c1 < 2 ^ 32) (hc2 : 0 ≤ c2) (hc2b : c2 < 2 ^ 32)
    (ht1 : t1 < 2 ^ 16) (ht2 : t2 < 2 ^ 16)
    (he1 : e1 < 2 ^ 16) (he2 : e2 < 2 ^ 16)
    (hne : (c1, t1, e1) ≠ (c2, t2, e2)) :
    last_event_key c1 t1 e1 ≠ last_event_key c2 t2 e2 := by
  intro hk
  apply hne
  unfold last_event_key at hk
  have hmod : (U64_MOD : Int) = 2 ^ 64 := by norm_num [U64_MOD]
  have hu1 : u64ofInt c1 = c1.toNat := by
    unfold u64ofInt
    rw [Int.emod_eq_of_lt hc1 (by rw [hmod]; exact lt_trans hc1b (by norm_num))]
  have hu2 : u64ofInt c2 = c2.toNat := by
    unfold u64ofInt
    rw [Int.emod_eq_of_lt hc2 (by rw [hmod]; exact lt_trans hc2b (by norm_num))]
  have hsh : ∀ x k : Nat, x <<< k = x * 2 ^ k := fun x k => Nat.shiftLeft_eq x k
  have hme1 : (e1 <<< 32) % U64_MOD = e1 <<< 32 := by
    apply Nat.mod_eq_of_lt
    rw [hsh]
    unfold U64_MOD
    omega
  have hme2 : (e2 <<< 32) % U64_MOD = e2 <<< 32 := by
    apply Nat.mod_eq_of_lt
    rw [hsh]
    unfold U64_MOD
    omega
  have hmt1 : (t1 <<< 48) % U64_MOD = t1 <<< 48 := by
    apply Nat.mod_eq_of_lt
    rw [hsh]
    unfold U64_MOD
    omega
  have hmt2 : (t2 <<< 48) % U64_MOD = t2 <<< 48 := by
    apply Nat.mod_eq_of_lt
    rw [hsh]
    unfold U64_MOD
    omega
  rw [hu1, hu2, hme1, hme2, hmt1, hmt2] at hk
  obtain ⟨hA, hE, hT⟩ := lor_fields_inj c1.toNat c2.toNat e1 e2 t1 t2
    (by omega) (by omega) he1 he2 ht1 ht2 hk
  have hc : c1 = c2 := by omega
  rw [hc, hE, hT]

/-- C5 witness: `last_event_key_injective_bounded` applied to the
distinct in-range triples (5, 1, 2) and (5, 1, 3). -/
theorem last_event_key_injective_bounded_witness :
    last_event_key 5 1 2 ≠ last_event_key 5 1 3 :=
  last_event_key_injective_bounded 5 5 1 1 2 3 (by norm_num) (by norm_num)
    (by norm_num) (by norm_num) (by norm_num) (by norm_num) (by norm_num)
    (by norm_num) (by decide)

/-! ## Claims C2 and C7: the dedup window -/

/-- On monotonic timestamps below `2 ^ 64` the `__u64` subtraction in the
window check computes the true difference. -/
theorem u64sub_eq_sub (a b : Nat) (hb : b ≤ a) (ha : a < U64_MOD) :
    u64sub a b = a - b := by
  have h : a < 2 ^ 64 := by simpa [U64_MOD] using ha
  unfold u64sub U64_MOD
  omega

/-- Behaviour of `send_sysctl_event` when the dedup key is present. -/
theorem send_sysctl_event_find_some (cookieOf : Nat → Int) (tuner_id : Nat)
    (sk : Option Sock) (scenario_id event_id : Nat)
    (old new : Int × Int × Int) (m : LastEventMap) (now last : Nat)
    (h : m.find (sendKey cookieOf tuner_id sk event_id) = some last) :
    send_sysctl_event cookieOf tuner_id sk scenario_id event_id old new m now =
      if u64sub now last < 25 * MSEC then (m, none)
      else
        (⟨fun j => if j = sendKey cookieOf tuner_id sk event_id then some now
                   else m.find j, m.size⟩,
         some ⟨tuner_id, scenario_id, get_netns_cookie cookieOf (sk_net sk),
               event_id, old, new⟩) := by
  unfold sendKey at h ⊢
  simp only [send_sysctl_event, h]

/-- Behaviour of `send_sysctl_event` when the dedup key is absent. -/
theorem send_sysctl_event_find_none (cookieOf : Nat → Int) (tuner_id : Nat)
    (sk : Option Sock) (scenario_id event_id : Nat)
    (old new : Int × Int × Int) (m : LastEventMap) (now : Nat)
    (h : m.find (sendKey cookieOf tuner_id sk event_id) = none) :
    send_sysctl_event cookieOf tuner_id sk scenario_id event_id old new m now =
      ((mapUpdate m (sendKey cookieOf tuner_id sk event_id) now).1,
       some ⟨tuner_id, scenario_id, get_netns_cookie cookieOf (sk_net sk),
             event_id, old, new⟩) := by
  unfold sendKey at h ⊢
  simp only [send_sysctl_event, h]

/-- Invariant step for the dedup window: once the map records the
timestamp `tlast` of the last emission under a key, every later
emission in a chronological run is at least 25 ms after `tlast` and
consecutive emissions stay at least 25 ms apart. -/
theorem sendTrace_chain_aux (cookieOf : Nat → Int) (tuner_id : Nat)
    (sk : Option Sock) (scenario_id event_id : Nat)
    (old new : Int × Int × Int) (ts : List Nat) :
    ∀ (m : LastEventMap) (tlast : Nat),
      m.find (sendKey cookieOf tuner_id sk event_id) = some tlast →
      ts.Sorted (· ≤ ·) →
      (∀ t ∈ ts, tlast ≤ t ∧ t < U64_MOD) →
      (sendTrace cookieOf tuner_id sk scenario_id event_id old new m ts).Chain'
        (fun a b => a + 25 * MSEC ≤ b) ∧
      (∀ e ∈ sendTrace cookieOf tuner_id sk scenario_id event_id old new m ts,
        tlast + 25 * MSEC ≤ e) := by
  induction ts with
  | nil =>
    intro m tlast _ _ _
    simp [sendTrace]
  | cons t ts ih =>
    intro m tlast hfind hsort hmem
    obtain ⟨htl, htb⟩ := hmem t (List.mem_cons_self t ts)
    have hsort' : ts.Sorted (· ≤ ·) := (List.sorted_cons.mp hsort).2
    have hstep := send_sysctl_event_find_some cookieOf tuner_id sk scenario_id
      event_id old new m t tlast hfind
    by_cases hwin : u64sub t tlast < 25 * MSEC
    · rw [if_pos hwin] at hstep
      have htrace : sendTrace cookieOf tuner_id sk scenario_id event_id old new
          m (t :: ts) =
          sendTrace cookieOf tuner_id sk scenario_id event_id old new m ts := by
        simp only [sendTrace, hstep]
        rfl
      rw [htrace]
      exact ih m tlast hfind hsort'
        (fun u hu => hmem u (List.mem_cons_of_mem t hu))
    · rw [if_neg hwin] at hstep
      have hgap : tlast + 25 * MSEC ≤ t := by
        rw [u64sub_eq_sub t tlast htl htb] at hwin
        omega
      have hfind' :
          (⟨fun j => if j = sendKey cookieOf tuner_id sk event_id then some t
                     else m.find j, m.size⟩ : LastEventMap).find
            (sendKey cookieOf tuner_id sk event_id) = some t := by
        simp
      have hmem' : ∀ u ∈ ts, t ≤ u ∧ u < U64_MOD :=
        fun u hu => ⟨(List.sorted_cons.mp hsort).1 u hu,
          (hmem u (List.mem_cons_of_mem t hu)).2⟩
      have ihres := ih _ t hfind' hsort' hmem'
      have htrace : sendTrace cookieOf tuner_id sk scenario_id event_id old new
          m (t :: ts) =
          t :: sendTrace cookieOf tuner_id sk scenario_id event_id old new
            ⟨fun j => if j = sendKey cookieOf tuner_id sk event_id then some t
                      else m.find j, m.size⟩ ts := by
        simp only [sendTrace, hstep]
        rfl
      rw [htrace]
      constructor
      · refine List.chain'_cons'.mpr ⟨fun y hy => ?_, ihres.1⟩
        exact le_trans (by omega) (ihres.2 y (List.mem_of_mem_head? hy))
      · intro e he
        rcases List.mem_cons.mp he with rfl | he'
        · exact hgap
        · exact le_trans (by omega) (ihres.2 e he')

/-- C2 (amended): per key, `send_sysctl_event` drops an event arriving
less than 25 ms after the stored timestamp, leaving map and ring
untouched; an event at or past the window refreshes the stored
timestamp to `now` and is emitted; an absent key is inserted (when the
table is not full) and the event emitted.  Consequently, on any
chronological run that starts with the key unrecorded and the table not
full — so that every emission records its timestamp — consecutive
emitted events for that key are at least 25 ms apart.  (When the table
is full an emission may go unrecorded and the guarantee lapses; see the
counterexample.) -/
theorem send_sysctl_event_dedup_window (cookieOf : Nat → Int)
    (tuner_id : Nat) (sk : Option Sock) (scenario_id event_id : Nat)
    (old new : Int × Int × Int) :
    (∀ (m : LastEventMap) (now last : Nat),
      m.find (sendKey cookieOf tuner_id sk event_id) = some last →
      u64sub now last < 25 * MSEC →
      send_sysctl_event cookieOf tuner_id sk scenario_id event_id old new
        m now = (m, none)) ∧
    (∀ (m : LastEventMap) (now last : Nat),
      m.find (sendKey cookieOf tuner_id sk event_id) = some last →
      ¬ u64sub now last < 25 * MSEC →
      (send_sysctl_event cookieOf tuner_id sk scenario_id event_id old new
          m now).1.find (sendKey cookieOf tuner_id sk event_id) = some now ∧
      (send_sysctl_event cookieOf tuner_id sk scenario_id event_id old new
          m now).2 =
        some ⟨tuner_id, scenario_id, get_netns_cookie cookieOf (sk_net sk),
              event_id, old, new⟩) ∧
    (∀ (m : LastEventMap) (now : Nat),
      m.find (sendKey cookieOf tuner_id sk event_id) = none →
      m.size < LAST_EVENT_MAP_MAX_ENTRIES →
      (send_sysctl_event cookieOf tuner_id sk scenario_id event_id old new
          m now).1.find (sendKey cookieOf tuner_id sk event_id) = some now ∧
      (send_sysctl_event cookieOf tuner_id sk scenario_id event_id old new
          m now).2 =
        some ⟨tuner_id, scenario_id, get_netns_cookie cookieOf (sk_net sk),
              event_id, old, new⟩) ∧
    (∀ (m : LastEventMap) (ts : List Nat),
      ts.Sorted (· ≤ ·) → (∀ t ∈ ts, t < U64_MOD) →
      m.find (sendKey cookieOf tuner_id sk event_id) = none →
      m.size < LAST_EVENT_MAP_MAX_ENTRIES →
      (sendTrace cookieOf tuner_id sk scenario_id event_id old new m ts).Chain'
        (fun a b => a + 25 * MSEC ≤ b)) := by
  refine ⟨?_, ?_, ?_, ?_⟩
  · intro m now last hfind hwin
    rw [send_sysctl_event_find_some cookieOf tuner_id sk scenario_id event_id
      old new m now last hfind, if_pos hwin]
  · intro m now last hfind hwin
    rw [send_sysctl_event_find_some cookieOf tuner_id sk scenario_id event_id
      old new m now last hfind, if_neg hwin]
    exact ⟨by simp, rfl⟩
  · intro m now hfind hroom
    rw [send_sysctl_event_find_none cookieOf tuner_id sk scenario_id event_id
      old new m now hfind]
    refine ⟨?_, rfl⟩
    unfold mapUpdate
    rw [hfind, if_pos hroom]
    simp
  · intro m ts hsort hbound hfind hroom
    cases ts with
    | nil => simp [sendTrace]
    | cons t ts =>
      have hstep := send_sysctl_event_find_none cookieOf tuner_id sk scenario_id
        event_id old new m t hfind
      have hupd : mapUpdate m (sendKey cookieOf tuner_id sk event_id) t =
          (⟨fun j => if j = sendKey cookieOf tuner_id sk event_id then some t
                     else m.find j, m.size + 1⟩, true) := by
        unfold mapUpdate
        rw [hfind, if_pos hroom]
      rw [hupd] at hstep
      have htrace : sendTrace cookieOf tuner_id sk scenario_id event_id old new
          m (t :: ts) =
          t :: sendTrace cookieOf tuner_id sk scenario_id event_id old new
            ⟨fun j => if j = sendKey cookieOf tuner_id sk event_id then some t
                      else m.find j, m.size + 1⟩ ts := by
        simp only [sendTrace, hstep]
        rfl
      rw [htrace]
      have hfind' :
          (⟨fun j => if j = sendKey cookieOf tuner_id sk event_id then some t
                     else m.find j, m.size + 1⟩ : LastEventMap).find
            (sendKey cookieOf tuner_id sk event_id) = some t := by
        simp
      have hres := sendTrace_chain_aux cookieOf tuner_id sk scenario_id event_id
        old new ts _ t hfind' (List.sorted_cons.mp hsort).2
        (fun u hu => ⟨(List.sorted_cons.mp hsort).1 u hu,
          hbound u (List.mem_cons_of_mem t hu)⟩)
      exact List.chain'_cons'.mpr
        ⟨fun y hy => hres.2 y (List.mem_of_mem_head? hy), hres.1⟩

/-- C2 witness: `send_sysctl_event_dedup_window` exercised on a map that
already records timestamp 0 for the key of namespace cookie 7, tuner 1,
event 1: an event arriving 1 ms later is dropped with the map
unchanged. -/
theorem send_sysctl_event_dedup_window_witness :
    send_sysctl_event (fun _ => 7) 1 (some ⟨some 3⟩) 0 1 (0, 0, 0) (1, 1, 1)
      ⟨fun j => if j = last_event_key 7 1 1 then some 0 else none, 1⟩
      1000000 =
      (⟨fun j => if j = last_event_key 7 1 1 then some 0 else none, 1⟩, none) :=
  (send_sysctl_event_dedup_window (fun _ => 7) 1 (some ⟨some 3⟩) 0 1
    (0, 0, 0) (1, 1, 1)).1
    ⟨fun j => if j = last_event_key 7 1 1 then some 0 else none, 1⟩
    1000000 0 (by decide) (by decide)

/-- A full `last_event_map`: entries for keys 0 … 65535, all with
timestamp 0, occupying all 65536 slots. -/
def dedupFullMap : LastEventMap :=
  ⟨fun k => if k < 65536 then some 0 else none, 65536⟩

/-- C2 counterexample: with the table full and the key
(cookie 7, tuner 1, event 1) absent, two distinct events for that key
are both emitted only 1000 ns (< 25 ms) apart — each insert fails
silently, no timestamp is recorded, and the window is not enforced. -/
theorem dedup_window_violated_when_table_full :
    (send_sysctl_event (fun _ => 7) 1 (some ⟨some 3⟩) 0 1 (0, 0, 0) (1, 1, 1)
        dedupFullMap 0).2.isSome = true ∧
    (send_sysctl_event (fun _ => 7) 1 (some ⟨some 3⟩) 1 1 (0, 0, 0) (1, 1, 1)
        (send_sysctl_event (fun _ => 7) 1 (some ⟨some 3⟩) 0 1 (0, 0, 0)
          (1, 1, 1) dedupFullMap 0).1 1000).2.isSome = true ∧
    (1000 : Nat) < 25 * MSEC ∧
    dedupFullMap.size = LAST_EVENT_MAP_MAX_ENTRIES :=
  ⟨by decide, by decide, by decide, rfl⟩

/-! ## Claim C7 -/

/-- C7 counterexample: when the dedup table is full, no entries are
evicted — `send_sysctl_event` on a full table leaves the map completely
unchanged (the oldest entry, key 0 with timestamp 0, is still present
and the size still equals capacity), while the event is nevertheless
emitted.  The claimed eviction of the oldest 1/8 of the entries does
not happen. -/
theorem dedup_table_full_no_eviction :
    (send_sysctl_event (fun _ => 7) 1 (some ⟨some 3⟩) 0 1 (0, 0, 0) (1, 1, 1)
        dedupFullMap 0).1 = dedupFullMap ∧
    (send_sysctl_event (fun _ => 7) 1 (some ⟨some 3⟩) 0 1 (0, 0, 0) (1, 1, 1)
        dedupFullMap 0).2.isSome = true ∧
    dedupFullMap.size = LAST_EVENT_MAP_MAX_ENTRIES ∧
    dedupFullMap.find 0 = some 0 :=
  ⟨rfl, by decide, rfl, by decide⟩

/-- C7 (amended): when the dedup table is full and the key is absent, the
insert simply fails — the map is left unchanged, nothing is evicted —
and the event is still written to the ring, so no event is ever dropped
because the table is full. -/
theorem dedup_table_full_event_still_emitted (cookieOf : Nat → Int)
    (tuner_id : Nat) (sk : Option Sock) (scenario_id event_id : Nat)
    (old new : Int × Int × Int) (m : LastEventMap) (now : Nat)
    (habs : m.find (sendKey cookieOf tuner_id sk event_id) = none)
    (hfull : ¬ m.size < LAST_EVENT_MAP_MAX_ENTRIES) :
    send_sysctl_event cookieOf tuner_id sk scenario_id event_id old new m now =
      (m, some ⟨tuner_id, scenario_id, get_netns_cookie cookieOf (sk_net sk),
                event_id, old, new⟩) := by
  rw [send_sysctl_event_find_none cookieOf tuner_id sk scenario_id event_id
    old new m now habs]
  unfold mapUpdate
  rw [habs, if_neg hfull]

/-- C7 witness: `dedup_table_full_event_still_emitted` applied to the
full table. -/
theorem dedup_table_full_event_still_emitted_witness :
    send_sysctl_event (fun _ => 7) 1 (some ⟨some 3⟩) 0 1 (0, 0, 0) (1, 1, 1)
      dedupFullMap 0 =
      (dedupFullMap, some ⟨1, 0, 7, 1, (0, 0, 0), (1, 1, 1)⟩) :=
  dedup_table_full_event_still_emitted (fun _ => 7) 1 (some ⟨some 3⟩) 0 1
    (0, 0, 0) (1, 1, 1) dedupFullMap 0 (by decide) (by decide)

/-! ## Claims C3 and C4: the correlation engine -/

/-- The decidable integer guard used in the handler model agrees with
the real-valued comparison `corr_compute(&c) > CORR_THRESHOLD` of
`src/src/tcp_buffer_tuner.c` line 207. -/
theorem corr_exceeds_threshold_iff (c : Corr) :
    corr_exceeds_threshold c = true ↔ CORR_THRESHOLD < corr_compute c := by
  unfold corr_exceeds_threshold corr_compute CORR_THRESHOLD
  rw [decide_eq_true_eq]
  by_cases hn : c.n < 2
  · rw [if_pos hn]
    constructor
    · rintro ⟨h2, _⟩
      exact absurd h2 (by omega)
    · intro h
      norm_num at h
  · rw [if_neg hn]
    by_cases hv : corr_varx c ≤ 0 ∨ corr_vary c ≤ 0
    · rw [if_pos hv]
      constructor
      · rintro ⟨_, hvx, hvy, _⟩
        rcases hv with hv | hv
        · exact absurd hvx (by omega)
        · exact absurd hvy (by omega)
      · intro h
        norm_num at h
    · rw [if_neg hv]
      push_neg at hv
      obtain ⟨hvx, hvy⟩ := hv
      have hvxR : (0 : ℝ) < (corr_varx c : ℝ) := by exact_mod_cast hvx
      have hvyR : (0 : ℝ) < (corr_vary c : ℝ) := by exact_mod_cast hvy
      have hprod : (0 : ℝ) < (corr_varx c : ℝ) * (corr_vary c : ℝ) :=
        mul_pos hvxR hvyR
      have hs : 0 < Real.sqrt ((corr_varx c : ℝ) * (corr_vary c : ℝ)) :=
        Real.sqrt_pos.mpr hprod
      have hs2 : Real.sqrt ((corr_varx c : ℝ) * (corr_vary c : ℝ)) ^ 2 =
          (corr_varx c : ℝ) * (corr_vary c : ℝ) := Real.sq_sqrt hprod.le
      rw [lt_div_iff hs]
      constructor
      · rintro ⟨_, _, _, hnum, hlt⟩
        have hnumR : (0 : ℝ) < (corr_num c : ℝ) := by exact_mod_cast hnum
        have hltR : (corr_varx c : ℝ) * (corr_vary c : ℝ) <
            4 * ((corr_num c : ℝ) * (corr_num c : ℝ)) := by exact_mod_cast hlt
        nlinarith [hs, hs2, hnumR, hltR,
          sq_nonneg (Real.sqrt ((corr_varx c : ℝ) * (corr_vary c : ℝ)) -
            2 * (corr_num c : ℝ))]
      · intro h
        have hnumR : (0 : ℝ) < (corr_num c : ℝ) := by nlinarith [hs]
        have hnum : 0 < corr_num c := by exact_mod_cast hnumR
        refine ⟨by omega, hvx, hvy, hnum, ?_⟩
        have hR : (corr_varx c : ℝ) * (corr_vary c : ℝ) <
            4 * ((corr_num c : ℝ) * (corr_num c : ℝ)) := by
          nlinarith [hs, hs2, h]
        exact_mod_cast hR

/-- C3: whenever the correlation map holds an entry for the event's
(update id, namespace cookie), `corr_compute` on it exceeds
`CORR_THRESHOLD`, and the event's scenario is `TCP_BUFFER_INCREASE`,
the TCP buffer tuner's `event_handler` issues the tcp_wmem/tcp_rmem
write with the scenario downgraded to `TCP_BUFFER_NOCHANGE_LATENCY`
and the max component restored to its previous value
(`new[2] = old[2]`). -/
theorem corr_downgrade_nochange_latency
    (corr_lookup : Nat × Int → Option Corr) (ev : SysctlEvent) (c : Corr)
    (hcookie : ev.netns_cookie ≠ -1)
    (hlook : corr_lookup (ev.update_id, ev.netns_cookie) = some c)
    (hcorr : CORR_THRESHOLD < corr_compute c)
    (hscen : ev.scenario_id = TCP_BUFFER_INCREASE)
    (hid : ev.update_id = TCP_BUFFER_TCP_WMEM ∨
      ev.update_id = TCP_BUFFER_TCP_RMEM) :
    tcp_buffer_event_handler corr_lookup ev =
      some ⟨ev.update_id, TCP_BUFFER_NOCHANGE_LATENCY, ev.netns_cookie, 3,
            (ev.new.1, ev.new.2.1, ev.old.2.2)⟩ := by
  have hex : corr_exceeds_threshold c = true :=
    (corr_exceeds_threshold_iff c).mpr hcorr
  rcases hid with hid | hid <;> rw [hid] at hlook <;>
    simp only [TCP_BUFFER_TCP_WMEM, TCP_BUFFER_TCP_RMEM] at hlook <;>
    simp [tcp_buffer_event_handler, hcookie, hid, hlook, hex, hscen,
      bpftuner_tunable_name, descs, TCP_BUFFER_TCP_WMEM, TCP_BUFFER_TCP_RMEM,
      TCP_BUFFER_TCP_MEM, TCP_BUFFER_NOCHANGE_LATENCY, TCP_BUFFER_INCREASE,
      NETDEV_MAX_BACKLOG, TCP_BUFFER_TCP_MAX_ORPHANS, List.find?]

/-- C3 witness: `corr_downgrade_nochange_latency` on the perfectly
correlated entry built from samples (1,1), (2,2), (3,3) — its
correlation is 1 > 0.5 — and a concrete tcp_wmem increase event in
namespace 5: the write is downgraded and its max restored. -/
theorem corr_downgrade_nochange_latency_witness :
    tcp_buffer_event_handler
      (fun p => if p = (TCP_BUFFER_TCP_WMEM, (5 : Int)) then
        some ⟨3, 6, 6, 14, 14, 14⟩ else none)
      ⟨1, TCP_BUFFER_INCREASE, 5, TCP_BUFFER_TCP_WMEM,
       (4096, 16384, 65536), (4096, 16384, 131072)⟩ =
      some ⟨TCP_BUFFER_TCP_WMEM, TCP_BUFFER_NOCHANGE_LATENCY, 5, 3,
            (4096, 16384, 65536)⟩ :=
  corr_downgrade_nochange_latency
    (fun p => if p = (TCP_BUFFER_TCP_WMEM, (5 : Int)) then
      some ⟨3, 6, 6, 14, 14, 14⟩ else none)
    ⟨1, TCP_BUFFER_INCREASE, 5, TCP_BUFFER_TCP_WMEM,
     (4096, 16384, 65536), (4096, 16384, 131072)⟩
    ⟨3, 6, 6, 14, 14, 14⟩ (by decide) (by decide)
    ((corr_exceeds_threshold_iff ⟨3, 6, 6, 14, 14, 14⟩).mp (by decide))
    rfl (Or.inl rfl)

/-- Helper for the C4 counterexample: when the sample count and both
variance factors are positive but the variance product undershoots the
squared numerator, `corr_compute` exceeds 1. -/
theorem one_lt_corr_compute (c : Corr) (hn : ¬ c.n < 2)
    (hvx : 0 < corr_varx c) (hvy : 0 < corr_vary c) (hnum : 0 < corr_num c)
    (h : corr_varx c * corr_vary c < corr_num c * corr_num c) :
    1 < corr_compute c := by
  unfold corr_compute
  rw [if_neg hn, if_neg (by push_neg; exact ⟨hvx, hvy⟩)]
  have hvxR : (0 : ℝ) < (corr_varx c : ℝ) := by exact_mod_cast hvx
  have hvyR : (0 : ℝ) < (corr_vary c : ℝ) := by exact_mod_cast hvy
  have hprod : (0 : ℝ) < (corr_varx c : ℝ) * (corr_vary c : ℝ) :=
    mul_pos hvxR hvyR
  have hs : 0 < Real.sqrt ((corr_varx c : ℝ) * (corr_vary c : ℝ)) :=
    Real.sqrt_pos.mpr hprod
  rw [one_lt_div hs, Real.sqrt_lt' (by exact_mod_cast hnum), pow_two]
  exact_mod_cast h

/-- C4 counterexample: an entry reached by two `corr_update` calls —
samples (5368709120, 1000) then (0, 0) — saturates `Σx²` at
2^64 − 1 while the other accumulators stay exact; `n = 2`, both
variance factors are positive, yet the computed value exceeds 1, so it
is neither 0 nor a Pearson coefficient in [−1, 1]. -/
theorem corr_compute_saturation_counterexample :
    1 < corr_compute (corr_fold [(5368709120, 1000), (0, 0)]) := by
  have he : corr_fold [(5368709120, 1000), (0, 0)] =
      ⟨2, 5368709120, 1000, 5368709120000, 18446744073709551615, 1000000⟩ := by
    decide
  rw [he]
  apply one_lt_corr_compute <;>
    norm_num [corr_num, corr_varx, corr_vary]

/-- Sum of a mapped list as a `Finset.range` sum over positional
accesses. -/
theorem list_sum_eq_range_sum (f : Nat × Nat → ℤ) (l : List (Nat × Nat)) :
    (l.map f).sum = ∑ i in Finset.range l.length, f (l.getD i (0, 0)) := by
  induction l with
  | nil => simp
  | cons a l ih =>
    rw [List.map_cons, List.sum_cons, List.length_cons, Finset.sum_range_succ']
    simp [List.getD_cons_succ, List.getD_cons_zero, ih, add_comm]

/-- Cauchy–Schwarz for centered second moments over `Finset.range`:
`(n·Σxy − Σx·Σy)² ≤ (n·Σx² − (Σx)²)·(n·Σy² − (Σy)²)`. -/
theorem centered_cauchy_schwarz (n : ℕ) (x y : ℕ → ℤ) :
    ((n : ℤ) * (∑ i in Finset.range n, x i * y i) -
      (∑ i in Finset.range n, x i) * (∑ i in Finset.range n, y i)) ^ 2 ≤
    ((n : ℤ) * (∑ i in Finset.range n, x i * x i) -
      (∑ i in Finset.range n, x i) * (∑ i in Finset.range n, x i)) *
    ((n : ℤ) * (∑ i in Finset.range n, y i * y i) -
      (∑ i in Finset.range n, y i) * (∑ i in Finset.range n, y i)) := by
  rcases Nat.eq_zero_or_pos n with rfl | hpos
  · simp
  · have key := Finset.sum_mul_sq_le_sq_mul_sq (Finset.range n)
      (fun i => (n : ℤ) * x i - ∑ j in Finset.range n, x j)
      (fun i => (n : ℤ) * y i - ∑ j in Finset.range n, y j)
    have hA : (∑ i in Finset.range n,
        ((n : ℤ) * x i - ∑ j in Finset.range n, x j) *
        ((n : ℤ) * y i - ∑ j in Finset.range n, y j)) =
        (n : ℤ) * ((n : ℤ) * (∑ i in Finset.range n, x i * y i) -
          (∑ i in Finset.range n, x i) * (∑ i in Finset.range n, y i)) := by
      have hexp : ∀ i ∈ Finset.range n,
          ((n : ℤ) * x i - ∑ j in Finset.range n, x j) *
          ((n : ℤ) * y i - ∑ j in Finset.range n, y j) =
          (n : ℤ) * (n : ℤ) * (x i * y i) -
            ((n : ℤ) * (∑ j in Finset.range n, y j)) * x i -
            ((n : ℤ) * (∑ j in Finset.range n, x j)) * y i +
            (∑ j in Finset.range n, x j) * (∑ j in Finset.range n, y j) :=
        fun i _ => by ring
      rw [Finset.sum_congr rfl hexp]
      rw [Finset.sum_add_distrib, Finset.sum_sub_distrib, Finset.sum_sub_distrib,
        ← Finset.mul_sum, ← Finset.mul_sum, ← Finset.mul_sum, Finset.sum_const,
        Finset.card_range, nsmul_eq_mul]
      ring
    have hB : (∑ i in Finset.range n,
        ((n : ℤ) * x i - ∑ j in Finset.range n, x j) ^ 2) =
        (n : ℤ) * ((n : ℤ) * (∑ i in Finset.range n, x i * x i) -
          (∑ i in Finset.range n, x i) * (∑ i in Finset.range n, x i)) := by
      have hexp : ∀ i ∈ Finset.range n,
          ((n : ℤ) * x i - ∑ j in Finset.range n, x j) ^ 2 =
          (n : ℤ) * (n : ℤ) * (x i * x i) -
            (2 * (n : ℤ) * (∑ j in Finset.range n, x j)) * x i +
            (∑ j in Finset.range n, x j) * (∑ j in Finset.range n, x j) :=
        fun i _ => by ring
      rw [Finset.sum_congr rfl hexp]
      rw [Finset.sum_add_distrib, Finset.sum_sub_distrib, ← Finset.mul_sum,
        ← Finset.mul_sum, Finset.sum_const, Finset.card_range, nsmul_eq_mul]
      ring
    have hC : (∑ i in Finset.range n,
        ((n : ℤ) * y i - ∑ j in Finset.range n, y j) ^ 2) =
        (n : ℤ) * ((n : ℤ) * (∑ i in Finset.range n, y i * y i) -
          (∑ i in Finset.range n, y i) * (∑ i in Finset.range n, y i)) := by
      have hexp : ∀ i ∈ Finset.range n,
          ((n : ℤ) * y i - ∑ j in Finset.range n, y j) ^ 2 =
          (n : ℤ) * (n : ℤ) * (y i * y i) -
            (2 * (n : ℤ) * (∑ j in Finset.range n, y j)) * y i +
            (∑ j in Finset.range n, y j) * (∑ j in Finset.range n, y j) :=
        fun i _ => by ring
      rw [Finset.sum_congr rfl hexp]
      rw [Finset.sum_add_distrib, Finset.sum_sub_distrib, ← Finset.mul_sum,
        ← Finset.mul_sum, Finset.sum_const, Finset.card_range, nsmul_eq_mul]
      ring
    rw [hA, hB, hC] at key
    have hn2 : (0 : ℤ) < (n : ℤ) * (n : ℤ) := by
      have : (0 : ℤ) < (n : ℤ) := by exact_mod_cast hpos
      positivity
    nlinarith [key, hn2]

/-- The exact entry's Pearson pieces obey Cauchy–Schwarz. -/
theorem corr_exact_cauchy_schwarz (l : List (Nat × Nat)) :
    corr_num (corr_exact l) ^ 2 ≤
      corr_varx (corr_exact l) * corr_vary (corr_exact l) := by
  have hx : (((l.map (·.1)).sum : Nat) : ℤ) =
      ∑ i in Finset.range l.length, ((l.getD i (0, 0)).1 : ℤ) := by
    rw [Nat.cast_list_sum, List.map_map]
    exact list_sum_eq_range_sum (fun p => (p.1 : ℤ)) l
  have hy : (((l.map (·.2)).sum : Nat) : ℤ) =
      ∑ i in Finset.range l.length, ((l.getD i (0, 0)).2 : ℤ) := by
    rw [Nat.cast_list_sum, List.map_map]
    exact list_sum_eq_range_sum (fun p => (p.2 : ℤ)) l
  have hxy : (((l.map fun p => p.1 * p.2).sum : Nat) : ℤ) =
      ∑ i in Finset.range l.length,
        ((l.getD i (0, 0)).1 : ℤ) * ((l.getD i (0, 0)).2 : ℤ) := by
    rw [Nat.cast_list_sum, List.map_map]
    have := list_sum_eq_range_sum (fun p => ((p.1 : ℤ) * (p.2 : ℤ))) l
    simpa using this
  have hx2 : (((l.map fun p => p.1 * p.1).sum : Nat) : ℤ) =
      ∑ i in Finset.range l.length,
        ((l.getD i (0, 0)).1 : ℤ) * ((l.getD i (0, 0)).1 : ℤ) := by
    rw [Nat.cast_list_sum, List.map_map]
    have := list_sum_eq_range_sum (fun p => ((p.1 : ℤ) * (p.1 : ℤ))) l
    simpa using this
  have hy2 : (((l.map fun p => p.2 * p.2).sum : Nat) : ℤ) =
      ∑ i in Finset.range l.length,
        ((l.getD i (0, 0)).2 : ℤ) * ((l.getD i (0, 0)).2 : ℤ) := by
    rw [Nat.cast_list_sum, List.map_map]
    have := list_sum_eq_range_sum (fun p => ((p.2 : ℤ) * (p.2 : ℤ))) l
    simpa using this
  unfold corr_num corr_varx corr_vary corr_exact
  simp only []
  rw [hx, hy, hxy, hx2, hy2]
  exact centered_cauchy_schwarz l.length
    (fun i => ((l.getD i (0, 0)).1 : ℤ)) (fun i => ((l.getD i (0, 0)).2 : ℤ))

/-- C4 (amended): for every correlation entry built by `corr_update`
calls in which no accumulator saturated (the stored sums equal the
exact sums over the samples), `corr_compute` lies in [−1, 1], and it
is 0 whenever fewer than two samples were recorded (the variance-factor
zero cases are likewise sent to 0 by definition).  With saturation the
bound can fail — see the counterexample. -/
theorem corr_compute_bounds_no_saturation (l : List (Nat × Nat))
    (h : corr_fold l = corr_exact l) :
    (-1 ≤ corr_compute (corr_fold l) ∧ corr_compute (corr_fold l) ≤ 1) ∧
    (l.length < 2 → corr_compute (corr_fold l) = 0) := by
  rw [h]
  have hcs := corr_exact_cauchy_schwarz l
  constructor
  · unfold corr_compute
    split_ifs with h1 h2
    · norm_num
    · norm_num
    · push_neg at h2
      obtain ⟨hvx, hvy⟩ := h2
      have hvxR : (0 : ℝ) < (corr_varx (corr_exact l) : ℝ) := by exact_mod_cast hvx
      have hvyR : (0 : ℝ) < (corr_vary (corr_exact l) : ℝ) := by exact_mod_cast hvy
      have hprod : (0 : ℝ) < (corr_varx (corr_exact l) : ℝ) *
          (corr_vary (corr_exact l) : ℝ) := mul_pos hvxR hvyR
      have hs : 0 < Real.sqrt ((corr_varx (corr_exact l) : ℝ) *
          (corr_vary (corr_exact l) : ℝ)) := Real.sqrt_pos.mpr hprod
      have hs2 : Real.sqrt ((corr_varx (corr_exact l) : ℝ) *
          (corr_vary (corr_exact l) : ℝ)) ^ 2 =
          (corr_varx (corr_exact l) : ℝ) * (corr_vary (corr_exact l) : ℝ) :=
        Real.sq_sqrt hprod.le
      have hcsR : (corr_num (corr_exact l) : ℝ) ^ 2 ≤
          (corr_varx (corr_exact l) : ℝ) * (corr_vary (corr_exact l) : ℝ) := by
        exact_mod_cast hcs
      constructor
      · rw [le_div_iff hs]
        nlinarith [hs, hs2, hcsR,
          sq_nonneg ((corr_num (corr_exact l) : ℝ) +
            Real.sqrt ((corr_varx (corr_exact l) : ℝ) *
              (corr_vary (corr_exact l) : ℝ)))]
      · rw [div_le_one hs]
        nlinarith [hs, hs2, hcsR,
          sq_nonneg ((corr_num (corr_exact l) : ℝ) -
            Real.sqrt ((corr_varx (corr_exact l) : ℝ) *
              (corr_vary (corr_exact l) : ℝ)))]
  · intro hlen
    unfold corr_compute
    rw [if_pos (show (corr_exact l).n < 2 from hlen)]

/-- C4 witness: `corr_compute_bounds_no_saturation` on the unsaturated
two-sample entry from (1,1), (2,2). -/
theorem corr_compute_bounds_no_saturation_witness :
    ((-1 ≤ corr_compute (corr_fold [(1, 1), (2, 2)]) ∧
      corr_compute (corr_fold [(1, 1), (2, 2)]) ≤ 1)) ∧
    (([(1, 1), (2, 2)] : List (Nat × Nat)).length < 2 →
      corr_compute (corr_fold [(1, 1), (2, 2)]) = 0) :=
  corr_compute_bounds_no_saturation [(1, 1), (2, 2)] (by decide)

end Bpftune
